import Mathlib

/-!
Verification development for the filen-relay server orchestrator.

This file gives a shallow embedding, in Lean, of the core of the
filen-relay repository:

* the data model (`ServerSpec`, `ServerState`, `ServerStatus`, `LogLine`,
  `LogLineContent`) from `src/common.rs`;
* the log buffer `IncrementalVec` from `src/util.rs` (history vector plus
  a tokio `broadcast` fan-out channel, which we model as one FIFO queue
  per live receiver);
* `ServerId::short` from `src/common.rs` (Rust `split_once('-')` plus
  `unwrap`; the possible panic is modelled by returning `Option`);
* the reverse-proxy target resolution `ServerResolver::resolve` and the
  three `proxy_route` registrations from `src/backend/mod.rs`;
* the `ServerManager` control loop from `src/servers.rs` as a labelled
  step function over an explicit manager state: `Add`/`Remove` requests
  processed serially by the loop, plus the asynchronous supervisor-task
  events (process exit, wait error, stop-signal firing, piped output
  lines) as separate labels whose payloads (port numbers, exit statuses,
  store success/failure, generated uuids) are chosen by the environment.

External collaborators (the sqlite spec store, the Filen client, the
rclone child process, uuid generation, the system clock) are modelled at
their boundary: their outcomes are carried by the event labels, and the
clock is a counter incremented at each pushed log line.
-/

namespace FilenRelay

/-- Embedding of `ServerType` from `src/common.rs`. -/
inductive ServerType where
  | http
  | webdav
  | s3
  | ftp
  | sftp
  deriving DecidableEq, Repr

/-- Embedding of `ServerSpec` from `src/common.rs`.  The `ServerId`
newtype around `String` is modelled as a plain `String`. -/
structure ServerSpec where
  id : String
  name : String
  serverType : ServerType
  root : String
  readOnly : Bool
  password : Option String
  filenEmail : String
  filenPassword : String
  filen2faCode : Option String
  deriving DecidableEq, Repr

/-- Embedding of `ServerStatus` from `src/common.rs`. -/
inductive ServerStatus where
  | starting
  | running (port : Nat)
  | error
  deriving DecidableEq, Repr

/-- Embedding of `LogLineContent` from `src/common.rs`: orchestrator
`Event` lines versus raw `ServerProcess` output lines. -/
inductive LogLineContent where
  | event (msg : String)
  | serverProcess (msg : String)
  deriving DecidableEq, Repr

/-- Embedding of `LogLine` from `src/common.rs`; the chrono timestamp is
modelled as a `Nat` tick of a global clock counter. -/
structure LogLine where
  timestamp : Nat
  content : LogLineContent
  deriving DecidableEq, Repr

/-- Embedding of `ServerState` from `src/common.rs`. -/
structure ServerState where
  spec : ServerSpec
  logsId : String
  status : ServerStatus
  deriving DecidableEq, Repr

/-- Embedding of `IncrementalVec<T>` from `src/util.rs`: the history
vector `vec` together with the tokio `broadcast::Sender`.  The broadcast
channel is modelled at its boundary as the list of FIFO queues of the
currently registered receivers; `capacity` records the constructor
argument (used by the source only as the initial `Vec` allocation and as
the broadcast channel size). -/
structure IncrementalVec (T : Type) where
  vec : List T
  capacity : Nat
  subscribers : List (List T)
  deriving DecidableEq, Repr

namespace IncrementalVec

/-- Embedding of `IncrementalVec::new(capacity)`: empty history, a fresh
broadcast channel with no receivers. -/
def new (T : Type) (capacity : Nat) : IncrementalVec T :=
  { vec := [], capacity := capacity, subscribers := [] }

/-- Embedding of `IncrementalVec::push`: `self.vec.push(item)` followed
by `let _ = self.tx.send(item)` — the item is appended to the history
unconditionally, and the broadcast result (an error when there are no
receivers) is discarded. -/
def push (v : IncrementalVec T) (item : T) : IncrementalVec T :=
  { v with
    vec := v.vec ++ [item]
    subscribers := v.subscribers.map (fun q => q ++ [item]) }

/-- Push a whole list of items in order. -/
def pushList (v : IncrementalVec T) (items : List T) : IncrementalVec T :=
  items.foldl push v

/-- Embedding of `IncrementalVec::get` as used under the `Mutex` by the
`get_logs` streaming handler in `src/api.rs`: while the lock is held, the
history is cloned and a new broadcast receiver is registered
(`tx.subscribe()` / `resubscribe()`).  Returns the history snapshot, the
index of the new receiver, and the updated channel state. -/
def subscribe (v : IncrementalVec T) : List T × Nat × IncrementalVec T :=
  (v.vec, v.subscribers.length, { v with subscribers := v.subscribers ++ [[]] })

end IncrementalVec

/-- Embedding of Rust `str::split_once(c)` on the character list of a
string: splits at the first occurrence of `c`, returning the parts before
and after it, or `none` when `c` does not occur. -/
def splitOnceList (c : Char) : List Char → Option (List Char × List Char)
  | [] => none
  | x :: xs =>
    if x = c then some ([], xs)
    else (splitOnceList c xs).map (fun p => (x :: p.1, p.2))

/-- Embedding of `str::split_once` on strings. -/
def splitOnce (s : String) (c : Char) : Option (String × String) :=
  (splitOnceList c s.toList).map (fun p => (⟨p.1⟩, ⟨p.2⟩))

/-- Embedding of `ServerId::short` from `src/common.rs`:
`self.0.split_once('-').unwrap().0`.  The `unwrap` panics when the id
contains no hyphen; the panic is modelled by `none`. -/
def ServerId.short (id : String) : Option String :=
  (splitOnce id '-').map Prod.fst

/-- The two boolean fields of the `ServerResolver` struct registered in
`serve` in `src/backend/mod.rs`. -/
structure ServerResolver where
  with_rest : Bool
  append_slash : Bool
  deriving DecidableEq, Repr

/-- The fallback URL the source returns instead of a local 404
response. -/
def notFoundTarget : String := "https://postman-echo.com/get/status/404"

/-- Embedding of the `find` in `ServerResolver::resolve`:
`server_states.iter().find(|s| s.spec.id.short() == id)`.  Scanning stops
at the first instance whose short id equals `id`; evaluating `short()` on
an id without a hyphen panics, modelled by the outer `none`.  The inner
`Option` is the result of the find itself. -/
def findServer (id : String) : List ServerState → Option (Option ServerState)
  | [] => some none
  | r :: rs =>
    match ServerId.short r.spec.id with
    | none => none
    | some sh => if sh = id then some (some r) else findServer id rs

/-- Embedding of `ServerResolver::resolve` from `src/backend/mod.rs`.
`id` is the value of the `{id}` path parameter and `restParam` the value
of the `{*rest}` parameter when present.  The result is `none` when the
source would panic (an instance id without a hyphen reached by the scan),
otherwise the returned target URL string. -/
def resolve (cfg : ServerResolver) (id : String) (restParam : Option String)
    (states : List ServerState) : Option String :=
  if id.length < 4 then some notFoundTarget
  else
    let rest := if cfg.with_rest then "/" ++ restParam.getD "" else ""
    match findServer id states with
    | none => none
    | some none => some notFoundTarget
    | some (some st) =>
      match st.status with
      | .running port =>
        let extra_slash := if cfg.append_slash then "/" else ""
        some ("http://127.0.0.1:" ++ toString port ++ rest ++ extra_slash)
      | _ => some notFoundTarget

/-- Split a character list on `/` into path segments. -/
def splitSlash : List Char → List (List Char)
  | [] => [[]]
  | x :: xs =>
    let r := splitSlash xs
    if x = '/' then [] :: r
    else
      match r with
      | [] => [[x]]
      | y :: ys => (x :: y) :: ys

/-- The `/`-separated segments of a path. -/
def pathSegments (path : String) : List String :=
  (splitSlash path.toList).map (fun cs => ⟨cs⟩)

/-- Join segments back with `/`, as the axum router passes the tail
captured by `{*rest}` as one string. -/
def joinSegments : List String → String
  | [] => ""
  | [x] => x
  | x :: xs => x ++ "/" ++ joinSegments xs

/-- Embedding of the three `proxy_route` registrations in `serve` in
`src/backend/mod.rs`: `/s/{id}` with `with_rest: false, append_slash:
false`; `/s/{id}/` with `with_rest: false, append_slash: true`;
`/s/{id}/{*rest}` with `with_rest: true, append_slash: false`.  Given an
inbound request path, returns the matched resolver configuration, the
`{id}` parameter and the optional `{*rest}` parameter, or `none` when no
proxy route matches. -/
def routeRequest (path : String) :
    Option (ServerResolver × String × Option String) :=
  match pathSegments path with
  | ["", "s", id] => some (⟨false, false⟩, id, none)
  | ["", "s", id, ""] => some (⟨false, true⟩, id, none)
  | "" :: "s" :: id :: rest =>
    if rest.isEmpty then none
    else some (⟨true, false⟩, id, some (joinSegments rest))
  | _ => none

/-- An inbound proxied request: route dispatch followed by target
resolution against the given state snapshot. -/
def proxyRequest (path : String) (states : List ServerState) :
    Option String :=
  (routeRequest path).bind fun p => resolve p.1 p.2.1 p.2.2 states

/-- Embedding of the `Logs` struct from `src/servers.rs`: the spec the
sink belongs to and the shared `IncrementalVec` of its log lines. -/
structure Logs where
  server_spec : ServerSpec
  logLines : IncrementalVec LogLine
  deriving DecidableEq, Repr

/-- Phase of one spawned supervisor task (the `select!` in
`start_server`): still waiting on both the stop signal and process exit
(`select`); the stop oneshot has been completed or dropped but the task
has not yet resumed (`signalled`); or the `select!` has fired one branch
and the task has finished (`done`). -/
inductive SupPhase where
  | select
  | signalled
  | done
  deriving DecidableEq, Repr

/-- One spawned supervisor task: the id of the instance it owns, the
logs id of its sink, and its phase. -/
structure SupTask where
  specId : String
  logsId : String
  phase : SupPhase
  deriving DecidableEq, Repr

/-- Replace-or-append insertion into an association list, modelling
`HashMap::insert`. -/
def ainsert (k : String) (v : α) : List (String × α) → List (String × α)
  | [] => [(k, v)]
  | (k', v') :: rest =>
    if k' = k then (k, v) :: rest else (k', v') :: ainsert k v rest

/-- Key removal from an association list, modelling `HashMap::remove`. -/
def aerase (k : String) (l : List (String × α)) : List (String × α) :=
  l.filter (fun p => p.1 != k)

/-- The state owned by `ServerManager` in `src/servers.rs` together with
the surrounding runtime artefacts: the value of the
`tokio::sync::watch` channel of server states, the shared `logs` map, the
`stop_handles` map (each oneshot sender identified by the logs id of the
supervisor holding its receiver), the set of spawned supervisor tasks,
the external spec store contents, and the clock counter used for
timestamps. -/
structure MState where
  serverStates : List ServerState
  logs : List (String × Logs)
  stopHandles : List (String × String)
  sups : List SupTask
  db : List ServerSpec
  clock : Nat
  deriving DecidableEq, Repr

/-- The manager state at process start: everything empty. -/
def init : MState :=
  { serverStates := [], logs := [], stopHandles := [], sups := [],
    db := [], clock := 0 }

/-- Outcome of the fallible start-up phase of `start_server`: failure of
`authenticate_filen_client`, of `std::env::current_dir`, of
`free_local_ipv4_port`, or of `start_basic_server`, or a successful spawn
bound to a freshly allocated `port`. -/
inductive StartOutcome where
  | failAuth
  | failCwd
  | failPort
  | failSpawn
  | ok (port : Nat)
  deriving DecidableEq, Repr

/-- Whether a start outcome is one of the failure cases. -/
def StartOutcome.isFail : StartOutcome → Bool
  | .ok _ => false
  | _ => true

/-- The events the manager state reacts to.  `add` and `remove` are the
two `ServerSpecUpdate` requests processed serially by the control loop in
`run`; the other labels are the concurrent supervisor-task and pipe-task
steps.  Event payloads carry the outcomes of the external collaborators:
`uuid` the value produced by `uuid::Uuid::new_v4`, `persistOk` /
`deleteOk` the result of the spec store call, `success`/`statusStr` the
child's exit status, `killErr` the result of `process.kill()`. -/
inductive Ev where
  | add (spec : ServerSpec) (uuid : String) (persistOk : Bool)
      (outcome : StartOutcome)
  | remove (id : String) (deleteOk : Bool)
  | procExit (logsId : String) (success : Bool) (statusStr : String)
  | waitFail (logsId : String) (msg : String)
  | stopFires (logsId : String) (killErr : Option String)
  | procOutput (logsId : String) (line : String)
  deriving DecidableEq, Repr

/-- The logs id built at the top of `start_server`:
`format!("logs_{}_{}", spec.id.short(), uuid::Uuid::new_v4())`.  `none`
models the panic of `short()` on an id without a hyphen. -/
def mkLogsId (id uuid : String) : Option String :=
  (ServerId.short id).map (fun sh => "logs_" ++ sh ++ "_" ++ uuid)

/-- Append a log line (with the current clock as timestamp) to the sink
registered under `lid`, modelling the `log_info` / `log_err` /
`log_output` closures pushing into the shared `IncrementalVec`. -/
def pushLog (s : MState) (lid : String) (content : LogLineContent) :
    MState :=
  { s with
    logs :=
      match s.logs.lookup lid with
      | none => s.logs
      | some l =>
        ainsert lid { l with logLines := l.logLines.push ⟨s.clock, content⟩ }
          s.logs
    clock := s.clock + 1 }

/-- Completing (or dropping) the stop oneshot whose receiver is owned by
the supervisor identified by `lid`: if that supervisor is still in its
`select!`, its stop branch becomes runnable; otherwise the send result is
an ignored error. -/
def signalSup (lid : String) (sups : List SupTask) : List SupTask :=
  sups.map fun t =>
    if t.logsId = lid ∧ t.phase = SupPhase.select then
      { t with phase := SupPhase.signalled }
    else t

/-- Mark the supervisor identified by `lid` as finished. -/
def markDone (lid : String) (sups : List SupTask) : List SupTask :=
  sups.map fun t =>
    if t.logsId = lid then { t with phase := SupPhase.done } else t

/-- Set the status of the first table row whose spec id is `id`,
modelling `server_states.iter_mut().find(|s| s.spec.id == id)` followed
by the status assignment inside `send_modify`. -/
def setStatusFirst (id : String) (st : ServerStatus) :
    List ServerState → List ServerState
  | [] => []
  | r :: rs =>
    if r.spec.id = id then { r with status := st } :: rs
    else r :: setStatusFirst id st rs

/-- Embedding of `server_states.retain(|s| s.spec.id != id)` inside
`send_modify`. -/
def retainRows (id : String) (l : List ServerState) : List ServerState :=
  l.filter (fun r => r.spec.id != id)

/-- Embedding of the `find` in the `Remove` branch of `run`:
`states.iter().find(|s| s.spec.id == id)`. -/
def findRow (id : String) (l : List ServerState) : Option ServerState :=
  l.find? (fun r => r.spec.id == id)

/-- The head of `start_server`, run before the fallible phase: insert
the `Logs` entry into the shared map under the freshly built logs id,
push the `"Starting server..."` event line, push the `Starting` row into
the state table. -/
def startServerPre (s : MState) (spec : ServerSpec) (lid : String) :
    MState :=
  let s :=
    { s with
      logs := ainsert lid ⟨spec, IncrementalVec.new LogLine 100⟩ s.logs }
  let s := pushLog s lid (.event "Starting server...")
  { s with serverStates := s.serverStates ++ [⟨spec, lid, .starting⟩] }

/-- The tail of `start_server` after a successful spawn: push the
`"Server started successfully."` event line, set the row to
`Running{port}`, insert the stop handle (dropping a replaced sender for
the same id wakes the supervisor owning its receiver) and spawn the
supervisor task. -/
def startServerOk (s : MState) (spec : ServerSpec) (lid : String)
    (port : Nat) : MState :=
  let s := pushLog s lid (.event "Server started successfully.")
  let s :=
    { s with
      serverStates := setStatusFirst spec.id (.running port)
        s.serverStates }
  let s :=
    match s.stopHandles.lookup spec.id with
    | some oldLid => { s with sups := signalSup oldLid s.sups }
    | none => s
  let s := { s with stopHandles := ainsert spec.id lid s.stopHandles }
  { s with sups := s.sups ++ [⟨spec.id, lid, .select⟩] }

/-- Embedding of `ServerManager::start_server` from `src/servers.rs`,
called with the persistence already done.  In source order: build the
logs id and run `startServerPre`; then run the fallible phase
(authentication, current dir, port allocation, spawn) — on failure the
`?` operator returns the error to `run`, which only logs it via
`tracing`, leaving the state as it is; on success run `startServerOk`.
`none` models the `short()` panic in the logs-id construction. -/
def startServer (s : MState) (spec : ServerSpec) (uuid : String)
    (outcome : StartOutcome) : Option MState :=
  match mkLogsId spec.id uuid with
  | none => none
  | some lid =>
    let s := startServerPre s spec lid
    match outcome with
    | .failAuth | .failCwd | .failPort | .failSpawn => some s
    | .ok port => some (startServerOk s spec lid port)

/-- One step of the system.  The `add`/`remove` cases embed the two
branches of the control loop in `ServerManager::run` (including
`stop_server`); `procExit`/`waitFail`/`stopFires` embed the three ways
the `select!` of a spawned supervisor task can fire; `procOutput` embeds
one line delivered by a stdout/stderr pipe task.  `none` means the event
is not possible in this state (no such supervisor, or the supervisor
already finished) or that the source would panic. -/
def step (s : MState) : Ev → Option MState
  | .add spec uuid persistOk outcome =>
    if persistOk then
      startServer { s with db := s.db ++ [spec] } spec uuid outcome
    else some s
  | .remove id deleteOk =>
    match findRow id s.serverStates with
    | none => some s
    | some _ =>
      if deleteOk then
        let s := { s with db := s.db.filter (fun sp => sp.id != id) }
        match s.stopHandles.lookup id with
        | none => some s
        | some supLid =>
          some
            { s with
              stopHandles := aerase id s.stopHandles
              sups := signalSup supLid s.sups }
      else some s
  | .procExit lid success statusStr =>
    match s.sups.find? (fun t => t.logsId == lid) with
    | none => none
    | some t =>
      if t.phase = .done then none
      else
        let s :=
          pushLog s lid
            (.event ("Server process exited with status: " ++ statusStr))
        let s :=
          if success then
            { s with serverStates := retainRows t.specId s.serverStates }
          else
            { s with
              serverStates := setStatusFirst t.specId .error s.serverStates }
        some { s with sups := markDone lid s.sups }
  | .waitFail lid msg =>
    match s.sups.find? (fun t => t.logsId == lid) with
    | none => none
    | some t =>
      if t.phase = .done then none
      else
        let s := pushLog s lid (.event ("Server process wait failed: " ++ msg))
        let s :=
          { s with
            serverStates := setStatusFirst t.specId .error s.serverStates }
        some { s with sups := markDone lid s.sups }
  | .stopFires lid killErr =>
    match s.sups.find? (fun t => t.logsId == lid) with
    | none => none
    | some t =>
      if t.phase = .signalled then
        let s :=
          match killErr with
          | some e => pushLog s lid (.event ("Failed to stop server: " ++ e))
          | none => pushLog s lid (.event "Server stopped.")
        some
          { s with
            serverStates := retainRows t.specId s.serverStates
            sups := markDone lid s.sups }
      else none
  | .procOutput lid line =>
    match s.sups.find? (fun t => t.logsId == lid) with
    | none => none
    | some _ => some (pushLog s lid (.serverProcess line))

/-- Run a sequence of events from a state. -/
def run (s : MState) : List Ev → Option MState
  | [] => some s
  | ev :: evs => (step s ev).bind (fun s' => run s' evs)

/-- Embedding of `ServerManagerApi::get_logs`: look the logs id up in the
shared map. -/
def getLogs (s : MState) (lid : String) : Option Logs :=
  s.logs.lookup lid

/-- The status of the (first) table row with the given spec id, as a
reader of the state snapshot sees it. -/
def statusOf (s : MState) (id : String) : Option ServerStatus :=
  (findRow id s.serverStates).map (fun r => r.status)

/-- The history lines of the sink registered under `lid`. -/
def sinkLines (s : MState) (lid : String) : Option (List LogLine) :=
  (getLogs s lid).map (fun l => l.logLines.vec)

/-- The phase of the supervisor task identified by `lid`. -/
def supPhaseOf (s : MState) (lid : String) : Option SupPhase :=
  (s.sups.find? (fun t => t.logsId == lid)).map (fun t => t.phase)

/-- The ids of the table rows. -/
def rowIds (l : List ServerState) : List String :=
  l.map (fun r => r.spec.id)

/-- The ids carried by the `add` events of a trace. -/
def addIds (evs : List Ev) : List String :=
  evs.filterMap fun ev =>
    match ev with
    | .add spec _ _ _ => some spec.id
    | _ => none

/-- The logs ids an event can write to (used to state the frame property
of the logs registry). -/
def touchedLogsIds (ev : Ev) : List String :=
  match ev with
  | .add spec uuid _ _ => (mkLogsId spec.id uuid).toList
  | .remove _ _ => []
  | .procExit lid _ _ => [lid]
  | .waitFail lid _ => [lid]
  | .stopFires lid _ => [lid]
  | .procOutput lid _ => [lid]

/-- A concrete server spec used by the concrete evaluations. -/
def cexSpec : ServerSpec :=
  { id := "ab12cd34-e56f", name := "srv", serverType := .http, root := "/",
    readOnly := false, password := none, filenEmail := "user@example.com",
    filenPassword := "pw", filen2faCode := none }

/-- The logs id `start_server` builds for `cexSpec` with uuid "u0". -/
def cexLid : String := "logs_ab12cd34_u0"

theorem IncrementalVec.pushList_vec (v : IncrementalVec T)
    (items : List T) : (v.pushList items).vec = v.vec ++ items := by
  induction items generalizing v with
  | nil => simp [pushList]
  | cons x xs ih =>
    simp [pushList] at ih ⊢
    rw [ih]
    simp [push]

theorem IncrementalVec.pushList_capacity (v : IncrementalVec T)
    (items : List T) : (v.pushList items).capacity = v.capacity := by
  induction items generalizing v with
  | nil => rfl
  | cons x xs ih =>
    simpa [pushList, push] using ih (v.push x)

theorem IncrementalVec.pushList_subscribers (v : IncrementalVec T)
    (items : List T) :
    (v.pushList items).subscribers
      = v.subscribers.map (fun q => q ++ items) := by
  induction items generalizing v with
  | nil => simp [pushList]
  | cons x xs ih =>
    simp only [pushList, List.foldl_cons] at ih ⊢
    rw [ih]
    simp [push, Function.comp]

theorem ServerId.short_of_not_mem_hyphen (id : String)
    (h : '-' ∉ id.toList) : ServerId.short id = none := by
  unfold ServerId.short splitOnce
  suffices hx : splitOnceList '-' id.toList = none by
    rw [hx]
    rfl
  revert h
  generalize id.toList = cs
  intro h
  induction cs with
  | nil => rfl
  | cons x xs ih =>
    simp only [List.mem_cons, not_or] at h
    have hx : ¬ x = '-' := fun hc => h.1 hc.symm
    simp [splitOnceList, hx, ih h.2]

theorem string_append_empty (s : String) : s ++ "" = s := by
  cases s
  show String.mk _ = String.mk _
  simp [String.append]

/-- C4 counterexample: a log sink created with capacity 1 retains both
pushed lines — `push` never discards the oldest line, so the history
exceeds the capacity. -/
theorem C4_push_keeps_history_beyond_capacity :
    (((IncrementalVec.new LogLine 1).push ⟨0, .event "a"⟩).push
        ⟨1, .event "b"⟩).vec.length = 2 ∧
    ¬ (((IncrementalVec.new LogLine 1).push ⟨0, .event "a"⟩).push
        ⟨1, .event "b"⟩).vec.length ≤ 1 := by
  constructor <;> decide

/-- C4 (amended): for every log sink created with capacity `cap` and
every sequence of Push operations, the retained history holds exactly the
full pushed sequence in order — no line is ever discarded, the capacity
only sets the initial allocation and the broadcast channel size.  When
there are no active subscribers the broadcast failure is ignored and the
push still succeeds (the subscriber set stays empty and the history still
grows). -/
theorem C4_history_holds_all_pushes (cap : Nat) (items : List LogLine) :
    ((IncrementalVec.new LogLine cap).pushList items).vec = items ∧
    ((IncrementalVec.new LogLine cap).pushList items).subscribers = [] ∧
    ((IncrementalVec.new LogLine cap).pushList items).capacity = cap := by
  refine ⟨?_, ?_, ?_⟩
  · simpa [IncrementalVec.new] using
      IncrementalVec.pushList_vec (IncrementalVec.new LogLine cap) items
  · simpa [IncrementalVec.new] using
      IncrementalVec.pushList_subscribers (IncrementalVec.new LogLine cap) items
  · simpa [IncrementalVec.new] using
      IncrementalVec.pushList_capacity (IncrementalVec.new LogLine cap) items

/-- C5: a subscriber who subscribes after the lines `xs` have been pushed
receives exactly `xs` as its history snapshot (first conjunct: on a fresh
sink; second: the snapshot is always exactly the current history), and
its live queue then receives each subsequently pushed line exactly once
in append order (third conjunct): after `ys` are pushed, the new
receiver's queue is exactly `ys` — nothing lost or duplicated at the
seam, because snapshot and registration happen in one `subscribe` step
under the sink's mutex. -/
theorem C5_subscribe_seam (cap : Nat) (xs ys : List LogLine) :
    (((IncrementalVec.new LogLine cap).pushList xs).subscribe.1 = xs)
    ∧ (∀ v : IncrementalVec LogLine, v.subscribe.1 = v.vec)
    ∧ (∀ v : IncrementalVec LogLine,
        ((v.subscribe.2.2).pushList ys).subscribers[v.subscribe.2.1]?
          = some ys) := by
  refine ⟨?_, fun v => rfl, fun v => ?_⟩
  · simpa [IncrementalVec.new] using
      IncrementalVec.pushList_vec (IncrementalVec.new LogLine cap) xs
  · have hsubs :
        ((v.subscribe.2.2).pushList ys).subscribers
          = v.subscribers.map (fun q => q ++ ys) ++ [ys] := by
      rw [IncrementalVec.pushList_subscribers]
      simp [IncrementalVec.subscribe]
    rw [hsubs]
    have hlen : (v.subscribers.map (fun q => q ++ ys)).length
        = v.subscribers.length := by simp
    show (v.subscribers.map (fun q => q ++ ys) ++ [ys])[v.subscribers.length]?
        = some ys
    rw [List.getElem?_append_right (by omega)]
    simp [hlen]

theorem findServer_of_no_match (id : String) (states : List ServerState)
    (h : ∀ st ∈ states, ∃ sh, ServerId.short st.spec.id = some sh ∧ sh ≠ id) :
    findServer id states = some none := by
  induction states with
  | nil => rfl
  | cons r rs ih =>
    obtain ⟨sh, hsh, hne⟩ := h r (List.mem_cons_self r rs)
    have hrest := ih (fun st hst => h st (List.mem_cons_of_mem r hst))
    simp [findServer, hsh, hne, hrest]

theorem resolve_single_running (cfg : ServerResolver) (idreq lid : String)
    (spec : ServerSpec) (port : Nat) (rest : Option String)
    (hlen : ¬ idreq.length < 4)
    (h : ServerId.short spec.id = some idreq) :
    resolve cfg idreq rest [⟨spec, lid, .running port⟩]
      = some ("http://127.0.0.1:" ++ toString port
          ++ (if cfg.with_rest then "/" ++ rest.getD "" else "")
          ++ (if cfg.append_slash then "/" else "")) := by
  simp [resolve, findServer, h, hlen]

/-- C3: for every state snapshot and inbound proxy request, the resolver
returns the not-found target when the requested id is shorter than the
minimum length 4, when no instance's short id matches, or when the first
matching instance is `Starting` or `Error`; and for a matching `Running`
instance the three registered routes yield exactly the claimed targets. -/
theorem C3_proxy_resolution :
    (∀ (cfg : ServerResolver) (id : String) (rest : Option String)
        (states : List ServerState), id.length < 4 →
        resolve cfg id rest states = some notFoundTarget)
    ∧ (∀ (cfg : ServerResolver) (id : String) (rest : Option String)
        (states : List ServerState), ¬ id.length < 4 →
        (∀ st ∈ states,
          ∃ sh, ServerId.short st.spec.id = some sh ∧ sh ≠ id) →
        resolve cfg id rest states = some notFoundTarget)
    ∧ (∀ (cfg : ServerResolver) (id : String) (rest : Option String)
        (states : List ServerState) (st : ServerState), ¬ id.length < 4 →
        findServer id states = some (some st) →
        (st.status = .starting ∨ st.status = .error) →
        resolve cfg id rest states = some notFoundTarget)
    ∧ (∀ (spec : ServerSpec) (lid : String) (port : Nat),
        ServerId.short spec.id = some "ab12cd34" →
        proxyRequest "/s/ab12cd34" [⟨spec, lid, .running port⟩]
          = some ("http://127.0.0.1:" ++ toString port)
        ∧ proxyRequest "/s/ab12cd34/" [⟨spec, lid, .running port⟩]
          = some ("http://127.0.0.1:" ++ toString port ++ "/")
        ∧ proxyRequest "/s/ab12cd34/docs/file.txt"
            [⟨spec, lid, .running port⟩]
          = some ("http://127.0.0.1:" ++ toString port
              ++ "/docs/file.txt")) := by
  refine ⟨?_, ?_, ?_, ?_⟩
  · intro cfg id rest states h
    simp [resolve, h]
  · intro cfg id rest states hlen h
    simp [resolve, hlen, findServer_of_no_match id states h]
  · intro cfg id rest states st hlen hfind hst
    rcases hst with hst | hst <;> simp [resolve, hlen, hfind, hst]
  · intro spec lid port h
    have hlen : ¬ ("ab12cd34".length < 4) := by decide
    have hr1 : routeRequest "/s/ab12cd34"
        = some (⟨false, false⟩, "ab12cd34", none) := rfl
    have hr2 : routeRequest "/s/ab12cd34/"
        = some (⟨false, true⟩, "ab12cd34", none) := rfl
    have hr3 : routeRequest "/s/ab12cd34/docs/file.txt"
        = some (⟨true, false⟩, "ab12cd34", some "docs/file.txt") := rfl
    refine ⟨?_, ?_, ?_⟩
    · rw [proxyRequest, hr1, Option.some_bind,
        resolve_single_running _ _ _ _ _ _ hlen h]
      simp only [Bool.false_eq_true, if_false, string_append_empty]
    · rw [proxyRequest, hr2, Option.some_bind,
        resolve_single_running _ _ _ _ _ _ hlen h]
      simp only [Bool.false_eq_true, if_false, if_true, string_append_empty]
    · rw [proxyRequest, hr3, Option.some_bind,
        resolve_single_running _ _ _ _ _ _ hlen h]
      simp only [Bool.false_eq_true, if_false, if_true, Option.getD_some,
        string_append_empty]
      rw [show ("/" ++ "docs/file.txt" : String) = "/docs/file.txt" from rfl]

/-- C3 witness: the resolver evaluated at concrete inputs — a too-short
id, and the three literal route shapes against a concrete `Running`
instance on port 5. -/
theorem C3_proxy_resolution_witness :
    resolve ⟨false, false⟩ "ab1" none [] = some notFoundTarget
    ∧ proxyRequest "/s/ab12cd34" [⟨cexSpec, cexLid, .running 5⟩]
        = some "http://127.0.0.1:5"
    ∧ proxyRequest "/s/ab12cd34/" [⟨cexSpec, cexLid, .running 5⟩]
        = some "http://127.0.0.1:5/"
    ∧ proxyRequest "/s/ab12cd34/docs/file.txt"
        [⟨cexSpec, cexLid, .running 5⟩]
        = some "http://127.0.0.1:5/docs/file.txt" := by
  have h4 := C3_proxy_resolution.2.2.2 cexSpec cexLid 5 (by decide)
  refine ⟨C3_proxy_resolution.1 ⟨false, false⟩ "ab1" none [] (by decide),
    ?_, ?_, ?_⟩
  · rw [h4.1]
    rfl
  · rw [h4.2.1]
    rfl
  · rw [h4.2.2]
    rfl

theorem lookup_ainsert_self (k : String) (v : α) (l : List (String × α)) :
    (ainsert k v l).lookup k = some v := by
  induction l with
  | nil => simp [ainsert, List.lookup]
  | cons p rest ih =>
    obtain ⟨pk, pv⟩ := p
    by_cases h : pk = k
    · simp [ainsert, h, List.lookup]
    · have hbeq : (k == pk) = false :=
        beq_eq_false_iff_ne.mpr (fun hk => h hk.symm)
      simp [ainsert, h, List.lookup, hbeq, ih]

theorem lookup_ainsert_ne (k k' : String) (h : k' ≠ k) (v : α)
    (l : List (String × α)) :
    (ainsert k v l).lookup k' = l.lookup k' := by
  have hbeq : (k' == k) = false := beq_eq_false_iff_ne.mpr h
  induction l with
  | nil => simp [ainsert, List.lookup, hbeq]
  | cons p rest ih =>
    obtain ⟨pk, pv⟩ := p
    by_cases hp : pk = k
    · subst hp
      simp [ainsert, List.lookup, hbeq]
    · by_cases hq : k' = pk
      · simp [ainsert, hp, List.lookup, hq]
      · have hbq : (k' == pk) = false := beq_eq_false_iff_ne.mpr hq
        simp [ainsert, hp, List.lookup, hbq, ih]

theorem ainsert_ainsert (k : String) (v v' : α) (l : List (String × α)) :
    ainsert k v (ainsert k v' l) = ainsert k v l := by
  induction l with
  | nil => simp [ainsert]
  | cons p rest ih =>
    by_cases h : p.1 = k
    · simp [ainsert, h]
    · simp [ainsert, h, ih]

theorem pushLog_serverStates (s : MState) (lid : String)
    (c : LogLineContent) : (pushLog s lid c).serverStates = s.serverStates :=
  rfl

theorem pushLog_stopHandles (s : MState) (lid : String)
    (c : LogLineContent) : (pushLog s lid c).stopHandles = s.stopHandles :=
  rfl

theorem pushLog_sups (s : MState) (lid : String) (c : LogLineContent) :
    (pushLog s lid c).sups = s.sups :=
  rfl

theorem pushLog_db (s : MState) (lid : String) (c : LogLineContent) :
    (pushLog s lid c).db = s.db :=
  rfl

theorem getLogs_pushLog_ne (s : MState) (lid k : String)
    (c : LogLineContent) (h : k ≠ lid) :
    getLogs (pushLog s lid c) k = getLogs s k := by
  unfold getLogs pushLog
  cases hl : s.logs.lookup lid with
  | none => simp
  | some l => simp [lookup_ainsert_ne lid k h]

theorem getLogs_pushLog_isSome (s : MState) (lid k : String)
    (c : LogLineContent) (h : (getLogs s k).isSome) :
    (getLogs (pushLog s lid c) k).isSome := by
  by_cases hk : k = lid
  · subst hk
    unfold getLogs pushLog
    unfold getLogs at h
    cases hl : s.logs.lookup k with
    | none => simp [hl] at h
    | some l => simp [lookup_ainsert_self]
  · rwa [getLogs_pushLog_ne s lid k c hk]

/-- C9: `short()` on an id without a hyphen is the `unwrap` of `None` — a
panic, modelled as `none`: such an id never yields a short form (first
conjunct); the resolver's id comparison panics when its scan reaches such
an instance (second conjunct); and the logs-id construction at the top of
`start_server` panics for such a spec, so the whole add step does
(third and fourth conjuncts). -/
theorem C9_short_panics_without_hyphen :
    (∀ id : String, '-' ∉ id.toList → ServerId.short id = none)
    ∧ (∀ (cfg : ServerResolver) (idreq : String) (rest : Option String)
        (bad : ServerState) (states : List ServerState),
        '-' ∉ bad.spec.id.toList → ¬ idreq.length < 4 →
        resolve cfg idreq rest (bad :: states) = none)
    ∧ (∀ (spec : ServerSpec) (uuid : String), '-' ∉ spec.id.toList →
        mkLogsId spec.id uuid = none)
    ∧ (∀ (s : MState) (spec : ServerSpec) (uuid : String)
        (out : StartOutcome), '-' ∉ spec.id.toList →
        step s (.add spec uuid true out) = none) := by
  refine ⟨ServerId.short_of_not_mem_hyphen, ?_, ?_, ?_⟩
  · intro cfg idreq rest bad states hbad hlen
    simp [resolve, findServer, ServerId.short_of_not_mem_hyphen _ hbad, hlen]
  · intro spec uuid h
    simp [mkLogsId, ServerId.short_of_not_mem_hyphen _ h]
  · intro s spec uuid out h
    simp [step, startServer, mkLogsId, ServerId.short_of_not_mem_hyphen _ h]

/-- C9 witness: the concrete hyphen-less id "ab12cd34" panics in
`short()`, in the resolver scan, in the logs-id construction and in the
add step. -/
theorem C9_short_panics_witness :
    ServerId.short "ab12cd34" = none
    ∧ resolve ⟨false, false⟩ "ab12cd34" none
        [⟨{ cexSpec with id := "ab12cd34" }, cexLid, .running 5⟩] = none
    ∧ mkLogsId "ab12cd34" "u0" = none
    ∧ step init (.add { cexSpec with id := "ab12cd34" } "u0" true (.ok 5))
        = none := by
  refine ⟨C9_short_panics_without_hyphen.1 "ab12cd34" (by decide),
    C9_short_panics_without_hyphen.2.1 ⟨false, false⟩ "ab12cd34" none
      ⟨{ cexSpec with id := "ab12cd34" }, cexLid, .running 5⟩ []
      (by decide) (by decide),
    C9_short_panics_without_hyphen.2.2.1 { cexSpec with id := "ab12cd34" }
      "u0" (by decide),
    C9_short_panics_without_hyphen.2.2.2 init
      { cexSpec with id := "ab12cd34" } "u0" (.ok 5) (by decide)⟩

/-- C1 counterexample: processing an Add whose client authentication
fails (trace `[add cexSpec "u0" true failAuth]`) leaves the instance's
row in `Starting` status — not `Error` — and the instance's sink holds
only the pre-failure `"Starting server..."` event, no `Event` line
describing the cause. -/
theorem C1_startup_failure_counterexample :
    ((run init [.add cexSpec "u0" true .failAuth]).bind
        (fun s => statusOf s cexSpec.id)) = some .starting
    ∧ ¬ ((run init [.add cexSpec "u0" true .failAuth]).bind
        (fun s => statusOf s cexSpec.id)) = some .error
    ∧ ((run init [.add cexSpec "u0" true .failAuth]).bind
        (fun s => sinkLines s cexLid))
      = some [⟨0, .event "Starting server..."⟩] := by
  refine ⟨by decide, by decide, by decide⟩

/-- C1 (amended): any failure in the start-up phase (authentication,
current-dir lookup, free-port allocation, or process spawn) leaves the
instance's row retained in the live table in `Starting` status — there is
no transition to `Error` — and the instance's sink holds exactly the one
`"Starting server..."` event line pushed before the attempt; the failure
cause goes only to the process-wide tracing log.  No stop handle and no
supervisor task exist for the instance, and the spec stays persisted. -/
theorem C1_startup_failure_leaves_starting_row (s : MState)
    (spec : ServerSpec) (uuid lid : String) (out : StartOutcome)
    (hfail : out.isFail = true) (hlid : mkLogsId spec.id uuid = some lid) :
    step s (.add spec uuid true out)
      = some
          { s with
            db := s.db ++ [spec]
            logs := ainsert lid
              ⟨spec, ⟨[⟨s.clock, .event "Starting server..."⟩], 100, []⟩⟩
              s.logs
            serverStates := s.serverStates ++ [⟨spec, lid, .starting⟩]
            clock := s.clock + 1 } := by
  cases out with
  | ok port => simp [StartOutcome.isFail] at hfail
  | failAuth =>
    simp [step, startServer, startServerPre, hlid, pushLog,
      lookup_ainsert_self, ainsert_ainsert, IncrementalVec.push,
      IncrementalVec.new]
  | failCwd =>
    simp [step, startServer, startServerPre, hlid, pushLog,
      lookup_ainsert_self, ainsert_ainsert, IncrementalVec.push,
      IncrementalVec.new]
  | failPort =>
    simp [step, startServer, startServerPre, hlid, pushLog,
      lookup_ainsert_self, ainsert_ainsert, IncrementalVec.push,
      IncrementalVec.new]
  | failSpawn =>
    simp [step, startServer, startServerPre, hlid, pushLog,
      lookup_ainsert_self, ainsert_ainsert, IncrementalVec.push,
      IncrementalVec.new]

/-- C1 witness: the amended theorem evaluated at the failing-auth add on
the initial state. -/
theorem C1_startup_failure_witness :
    StartOutcome.isFail .failAuth = true
    ∧ mkLogsId cexSpec.id "u0" = some cexLid
    ∧ step init (.add cexSpec "u0" true .failAuth)
      = some
          { init with
            db := [cexSpec]
            logs := [(cexLid,
              ⟨cexSpec, ⟨[⟨0, .event "Starting server..."⟩], 100, []⟩⟩)]
            serverStates := [⟨cexSpec, cexLid, .starting⟩]
            clock := 1 } := by
  refine ⟨rfl, by decide, ?_⟩
  have h := C1_startup_failure_leaves_starting_row init cexSpec "u0" cexLid
    .failAuth (by decide) (by decide)
  simpa [init, ainsert] using h

/-- C6 counterexample: with a live instance (trace
`[add cexSpec "u0" true (ok 5)]`), a Remove whose store delete fails
leaves the state entirely unchanged — the supervisor stays in `select`
(it is never signalled) and the stop handle stays registered, so no
in-memory removal proceeds. -/
theorem C6_remove_abort_counterexample :
    run init [.add cexSpec "u0" true (.ok 5), .remove cexSpec.id false]
      = run init [.add cexSpec "u0" true (.ok 5)]
    ∧ ((run init [.add cexSpec "u0" true (.ok 5), .remove cexSpec.id false]).bind
        (fun s => supPhaseOf s cexLid)) = some .select
    ∧ ¬ ((run init [.add cexSpec "u0" true (.ok 5),
          .remove cexSpec.id false]).bind
        (fun s => supPhaseOf s cexLid)) = some .signalled
    ∧ ((run init [.add cexSpec "u0" true (.ok 5), .remove cexSpec.id false]).bind
        (fun s => s.stopHandles.lookup cexSpec.id)) = some cexLid := by
  refine ⟨by decide, by decide, by decide, by decide⟩

/-- C6 (amended): when a Remove request finds its id in the live table
but deleting the spec from the persistence store fails, the failure is
logged and the whole removal is aborted: the state is unchanged — the
supervisor is not signalled, the stop handle and the row both remain. -/
theorem C6_remove_aborts_on_store_failure (s : MState) (id : String)
    (r : ServerState) (hfind : findRow id s.serverStates = some r) :
    step s (.remove id false) = some s := by
  simp [step, hfind]

/-- C6 witness: the amended theorem applied to a concrete state holding
one running instance. -/
theorem C6_remove_aborts_witness :
    findRow cexSpec.id
        (MState.serverStates
          ⟨[⟨cexSpec, cexLid, .running 5⟩], [], [(cexSpec.id, cexLid)],
            [⟨cexSpec.id, cexLid, .select⟩], [cexSpec], 3⟩)
      = some ⟨cexSpec, cexLid, .running 5⟩
    ∧ step
        ⟨[⟨cexSpec, cexLid, .running 5⟩], [], [(cexSpec.id, cexLid)],
          [⟨cexSpec.id, cexLid, .select⟩], [cexSpec], 3⟩
        (.remove cexSpec.id false)
      = some
        ⟨[⟨cexSpec, cexLid, .running 5⟩], [], [(cexSpec.id, cexLid)],
          [⟨cexSpec.id, cexLid, .select⟩], [cexSpec], 3⟩ := by
  refine ⟨by decide,
    C6_remove_aborts_on_store_failure _ cexSpec.id
      ⟨cexSpec, cexLid, .running 5⟩ (by decide)⟩

theorem startServer_db (s : MState) (spec : ServerSpec) (uuid : String)
    (out : StartOutcome) (s' : MState)
    (h : startServer s spec uuid out = some s') : s'.db = s.db := by
  have hpre : ∀ lid, (startServerPre s spec lid).db = s.db := fun lid => rfl
  have hok : ∀ s₀ lid port,
      (startServerOk s₀ spec lid port).db = MState.db s₀ := by
    intro s₀ lid port
    unfold startServerOk
    simp only [pushLog]
    cases List.lookup spec.id s₀.stopHandles <;> rfl
  unfold startServer at h
  cases hlid : mkLogsId spec.id uuid with
  | none => rw [hlid] at h; exact absurd h (by simp)
  | some lid =>
    rw [hlid] at h
    cases out with
    | ok port =>
      rw [← Option.some_inj.mp h, hok]
      exact hpre lid
    | failAuth => rw [← Option.some_inj.mp h]; exact hpre lid
    | failCwd => rw [← Option.some_inj.mp h]; exact hpre lid
    | failPort => rw [← Option.some_inj.mp h]; exact hpre lid
    | failSpawn => rw [← Option.some_inj.mp h]; exact hpre lid

/-- C7: processing an Add persists the spec before anything is started:
if persistence fails the step leaves the state completely unchanged (no
row, no sink, no process; first conjunct), and whenever the step
completes after a successful persist, the spec is in the store (the store
was written before the spawn attempt; second conjunct). -/
theorem C7_persist_first (s : MState) (spec : ServerSpec) (uuid : String)
    (out : StartOutcome) :
    (step s (.add spec uuid false out) = some s)
    ∧ (∀ s', step s (.add spec uuid true out) = some s' →
        spec ∈ s'.db ∧ s'.db = s.db ++ [spec]) := by
  constructor
  · simp [step]
  · intro s' h
    simp only [step, if_pos] at h
    have hdb := startServer_db _ _ _ _ _ h
    simp only at hdb
    rw [hdb]
    simp

/-- C7 witness: the theorem evaluated at the initial state, for the
failing-persist case and the successful case. -/
theorem C7_persist_first_witness :
    step init (.add cexSpec "u0" false (.ok 5)) = some init
    ∧ cexSpec ∈
        ((run init [.add cexSpec "u0" true (.ok 5)]).getD init).db := by
  refine ⟨(C7_persist_first init cexSpec "u0" (.ok 5)).1, ?_⟩
  exact ((C7_persist_first init cexSpec "u0" (.ok 5)).2
    ((run init [.add cexSpec "u0" true (.ok 5)]).getD init) (by decide)).1

/-- C2: evaluation of the code at the failing input.  After a nonzero
exit the row is `Error` (first conjunct) and it is retained; but after an
explicit Remove for that id is processed (store delete succeeds), the row
is STILL present with `Error` status (second and third conjuncts): the
supervisor already finished, so the stop signal sent by `stop_server` is
an ignored error and nobody removes the row.  A zero exit removes the row
without any Remove (fourth conjunct). -/
theorem C2_error_row_survives_remove :
    ((run init [.add cexSpec "u0" true (.ok 5),
        .procExit cexLid false "1"]).bind
      (fun s => statusOf s cexSpec.id)) = some .error
    ∧ ((run init [.add cexSpec "u0" true (.ok 5), .procExit cexLid false "1",
        .remove cexSpec.id true]).bind
      (fun s => statusOf s cexSpec.id)) = some .error
    ∧ ¬ ((run init [.add cexSpec "u0" true (.ok 5),
        .procExit cexLid false "1", .remove cexSpec.id true]).bind
      (fun s => statusOf s cexSpec.id)) = none
    ∧ ((run init [.add cexSpec "u0" true (.ok 5),
        .procExit cexLid true "0"]).bind
      (fun s => statusOf s cexSpec.id)) = none := by
  refine ⟨by decide, by decide, by decide, by decide⟩

/-- C8 counterexample: in the reachable state after an Add whose start-up
phase failed, the live table holds one non-`Error` row (stuck in
`Starting`) while the stop-handle table is empty, so the two cannot be in
1:1 correspondence. -/
theorem C8_handle_table_not_bijective :
    ((run init [.add cexSpec "u0" true .failAuth]).map
      (fun s =>
        ((s.serverStates.filter
            (fun r => r.status != ServerStatus.error)).length,
          s.stopHandles.length))) = some (1, 0)
    ∧ (1 : Nat) ≠ 0 := by
  refine ⟨by decide, by decide⟩

theorem rowIds_append (l l' : List ServerState) :
    rowIds (l ++ l') = rowIds l ++ rowIds l' := by
  simp [rowIds]

theorem setStatusFirst_map_id (id : String) (st : ServerStatus)
    (l : List ServerState) :
    (setStatusFirst id st l).map (fun r => r.spec.id)
      = l.map (fun r => r.spec.id) := by
  induction l with
  | nil => rfl
  | cons r rs ih =>
    by_cases h : r.spec.id = id
    · simp [setStatusFirst, h]
    · simp [setStatusFirst, h]
      exact ih

theorem rowIds_setStatusFirst (id : String) (st : ServerStatus)
    (l : List ServerState) : rowIds (setStatusFirst id st l) = rowIds l := by
  simpa [rowIds] using setStatusFirst_map_id id st l

theorem rowIds_retainRows_sublist (id : String) (l : List ServerState) :
    List.Sublist (rowIds (retainRows id l)) (rowIds l) :=
  (List.filter_sublist l).map _

theorem startServerPre_rowIds (s : MState) (spec : ServerSpec)
    (lid : String) :
    rowIds (startServerPre s spec lid).serverStates
      = rowIds s.serverStates ++ [spec.id] := by
  simp [startServerPre, pushLog, rowIds]

theorem startServerOk_rowIds (s : MState) (spec : ServerSpec)
    (lid : String) (port : Nat) :
    rowIds (startServerOk s spec lid port).serverStates
      = rowIds s.serverStates := by
  unfold startServerOk
  simp only [pushLog]
  cases List.lookup spec.id s.stopHandles <;>
    simp [rowIds, setStatusFirst_map_id]

theorem addIds_cons (ev : Ev) (evs : List Ev) :
    addIds (ev :: evs) = addIds [ev] ++ addIds evs := by
  cases ev <;> simp [addIds]

theorem step_rowIds_sublist (s0 s1 : MState) (ev : Ev)
    (h : step s0 ev = some s1) :
    List.Sublist (rowIds s1.serverStates)
      (rowIds s0.serverStates ++ addIds [ev]) := by
  cases ev with
  | add spec uuid persistOk out =>
    have haid : addIds [Ev.add spec uuid persistOk out] = [spec.id] := by
      simp [addIds]
    rw [haid]
    by_cases hp : persistOk
    · subst hp
      simp only [step, if_pos] at h
      unfold startServer at h
      cases hlid : mkLogsId spec.id uuid with
      | none => rw [hlid] at h; exact absurd h (by simp)
      | some lid =>
        rw [hlid] at h
        have hpre := startServerPre_rowIds
          { s0 with db := s0.db ++ [spec] } spec lid
        simp only at hpre
        cases out with
        | ok port =>
          have := startServerOk_rowIds
            (startServerPre { s0 with db := s0.db ++ [spec] } spec lid)
            spec lid port
          rw [← Option.some_inj.mp h, this, hpre]
        | failAuth => rw [← Option.some_inj.mp h, hpre]
        | failCwd => rw [← Option.some_inj.mp h, hpre]
        | failPort => rw [← Option.some_inj.mp h, hpre]
        | failSpawn => rw [← Option.some_inj.mp h, hpre]
    · simp only [step, if_neg hp] at h
      rw [← Option.some_inj.mp h]
      exact List.sublist_append_left _ _
  | remove id deleteOk =>
    have hrows : s1.serverStates = s0.serverStates := by
      simp only [step] at h
      cases hf : findRow id s0.serverStates with
      | none => rw [hf] at h; rw [← Option.some_inj.mp h]
      | some r =>
        rw [hf] at h
        by_cases hd : deleteOk
        · subst hd
          simp only [if_pos] at h
          cases hl : List.lookup id
              (MState.stopHandles
                { s0 with db := s0.db.filter (fun sp => sp.id != id) }) with
          | none => rw [hl] at h; rw [← Option.some_inj.mp h]
          | some supLid => rw [hl] at h; rw [← Option.some_inj.mp h]
        · simp only [if_neg hd] at h
          rw [← Option.some_inj.mp h]
    rw [hrows]
    simp [addIds]
  | procExit lid success statusStr =>
    simp only [step] at h
    cases hf : s0.sups.find? (fun t => t.logsId == lid) with
    | none => rw [hf] at h; exact absurd h (by simp)
    | some t =>
      rw [hf] at h
      simp only at h
      by_cases hph : t.phase = SupPhase.done
      · rw [if_pos hph] at h; exact absurd h (by simp)
      · rw [if_neg hph] at h
        by_cases hs : success
        · subst hs
          simp only [if_pos] at h
          have : s1.serverStates
              = retainRows t.specId
                  (pushLog s0 lid (.event ("Server process exited with status: "
                    ++ statusStr))).serverStates := by
            rw [← Option.some_inj.mp h]
          rw [this, pushLog_serverStates]
          simpa [addIds] using rowIds_retainRows_sublist t.specId
            s0.serverStates
        · simp only [if_neg hs] at h
          have : s1.serverStates
              = setStatusFirst t.specId .error
                  (pushLog s0 lid (.event ("Server process exited with status: "
                    ++ statusStr))).serverStates := by
            rw [← Option.some_inj.mp h]
          rw [this, pushLog_serverStates, rowIds_setStatusFirst]
          simp [addIds]
  | waitFail lid msg =>
    simp only [step] at h
    cases hf : s0.sups.find? (fun t => t.logsId == lid) with
    | none => rw [hf] at h; exact absurd h (by simp)
    | some t =>
      rw [hf] at h
      simp only at h
      by_cases hph : t.phase = SupPhase.done
      · rw [if_pos hph] at h; exact absurd h (by simp)
      · rw [if_neg hph] at h
        have : s1.serverStates
            = setStatusFirst t.specId .error
                (pushLog s0 lid (.event ("Server process wait failed: "
                  ++ msg))).serverStates := by
          rw [← Option.some_inj.mp h]
        rw [this, pushLog_serverStates, rowIds_setStatusFirst]
        simp [addIds]
  | stopFires lid killErr =>
    simp only [step] at h
    cases hf : s0.sups.find? (fun t => t.logsId == lid) with
    | none => rw [hf] at h; exact absurd h (by simp)
    | some t =>
      rw [hf] at h
      simp only at h
      by_cases hph : t.phase = SupPhase.signalled
      · rw [if_pos hph] at h
        cases killErr with
        | some e =>
          have : s1.serverStates
              = retainRows t.specId
                  (pushLog s0 lid (.event ("Failed to stop server: "
                    ++ e))).serverStates := by
            rw [← Option.some_inj.mp h]
          rw [this, pushLog_serverStates]
          simpa [addIds] using rowIds_retainRows_sublist t.specId
            s0.serverStates
        | none =>
          have : s1.serverStates
              = retainRows t.specId
                  (pushLog s0 lid (.event "Server stopped.")).serverStates := by
            rw [← Option.some_inj.mp h]
          rw [this, pushLog_serverStates]
          simpa [addIds] using rowIds_retainRows_sublist t.specId
            s0.serverStates
      · rw [if_neg hph] at h; exact absurd h (by simp)
  | procOutput lid line =>
    simp only [step] at h
    cases hf : s0.sups.find? (fun t => t.logsId == lid) with
    | none => rw [hf] at h; exact absurd h (by simp)
    | some t =>
      rw [hf] at h
      simp only at h
      have : s1.serverStates
          = (pushLog s0 lid (.serverProcess line)).serverStates := by
        rw [← Option.some_inj.mp h]
      rw [this, pushLog_serverStates]
      simp [addIds]

theorem run_rowIds_nodup (evs : List Ev) (s0 s : MState)
    (h : run s0 evs = some s)
    (hnd : (rowIds s0.serverStates ++ addIds evs).Nodup) :
    (rowIds s.serverStates).Nodup := by
  induction evs generalizing s0 with
  | nil =>
    have : s0 = s := Option.some_inj.mp h
    subst this
    simpa [addIds] using hnd.of_append_left
  | cons ev evs ih =>
    simp only [run] at h
    cases hstep : step s0 ev with
    | none => rw [hstep] at h; exact absurd h (by simp)
    | some s1 =>
      rw [hstep] at h
      simp only [Option.some_bind] at h
      apply ih s1 h
      rw [addIds_cons, ← List.append_assoc] at hnd
      exact hnd.sublist
        ((step_rowIds_sublist s0 s1 ev hstep).append (List.Sublist.refl _))

/-- C8 (amended): for every sequence of events processed from start-up,
provided the Add requests carry pairwise-distinct ids (as the uuid-based
id generation guarantees), the live state table never contains two
entries with the same spec id.  The stop-handle table, however, is NOT in
1:1 correspondence with the non-`Error` live rows: a row whose start-up
failed stays in `Starting` with no handle, and a handle outlives a clean
self-exit (see the counterexample). -/
theorem C8_no_duplicate_ids (evs : List Ev) (s : MState)
    (hrun : run init evs = some s) (hfresh : (addIds evs).Nodup) :
    (rowIds s.serverStates).Nodup := by
  apply run_rowIds_nodup evs init s hrun
  simpa [init, rowIds] using hfresh

/-- C8 witness: the no-duplicate-ids theorem evaluated on a concrete
two-instance trace. -/
theorem C8_no_duplicate_ids_witness :
    run init
        [.add cexSpec "u0" true (.ok 5),
          .add { cexSpec with id := "ffffffff-0001" } "u1" true (.ok 6)]
      = some ((run init
          [.add cexSpec "u0" true (.ok 5),
            .add { cexSpec with id := "ffffffff-0001" } "u1" true (.ok 6)]).getD
          init)
    ∧ (addIds
        [.add cexSpec "u0" true (.ok 5),
          .add { cexSpec with id := "ffffffff-0001" } "u1" true (.ok 6)]).Nodup
    ∧ (rowIds ((run init
        [.add cexSpec "u0" true (.ok 5),
          .add { cexSpec with id := "ffffffff-0001" } "u1" true
            (.ok 6)]).getD init).serverStates).Nodup := by
  refine ⟨by decide, by decide, ?_⟩
  exact C8_no_duplicate_ids
    [.add cexSpec "u0" true (.ok 5),
      .add { cexSpec with id := "ffffffff-0001" } "u1" true (.ok 6)]
    ((run init
      [.add cexSpec "u0" true (.ok 5),
        .add { cexSpec with id := "ffffffff-0001" } "u1" true
          (.ok 6)]).getD init)
    (by decide) (by decide)

theorem getLogs_ainsert_isSome (s : List (String × Logs)) (lid k : String)
    (v : Logs) (h : (s.lookup k).isSome) :
    ((ainsert lid v s).lookup k).isSome := by
  by_cases hk : k = lid
  · subst hk
    simp [lookup_ainsert_self]
  · rwa [lookup_ainsert_ne lid k hk]

theorem startServerPre_getLogs_ne (s : MState) (spec : ServerSpec)
    (lid k : String) (h : k ≠ lid) :
    getLogs (startServerPre s spec lid) k = getLogs s k := by
  show getLogs
      (pushLog
        { s with
          logs := ainsert lid ⟨spec, IncrementalVec.new LogLine 100⟩ s.logs }
        lid (.event "Starting server...")) k
    = getLogs s k
  rw [getLogs_pushLog_ne _ _ _ _ h]
  exact lookup_ainsert_ne lid k h _ _

theorem startServerPre_getLogs_isSome (s : MState) (spec : ServerSpec)
    (lid k : String) (h : (getLogs s k).isSome) :
    (getLogs (startServerPre s spec lid) k).isSome := by
  show (getLogs
      (pushLog
        { s with
          logs := ainsert lid ⟨spec, IncrementalVec.new LogLine 100⟩ s.logs }
        lid (.event "Starting server...")) k).isSome
  apply getLogs_pushLog_isSome
  exact getLogs_ainsert_isSome _ _ _ _ h

theorem startServerOk_logs (s : MState) (spec : ServerSpec)
    (lid : String) (port : Nat) :
    (startServerOk s spec lid port).logs
      = (pushLog s lid (.event "Server started successfully.")).logs := by
  unfold startServerOk
  simp only [pushLog]
  cases List.lookup spec.id s.stopHandles <;> rfl

theorem startServerOk_getLogs_ne (s : MState) (spec : ServerSpec)
    (lid : String) (port : Nat) (k : String) (h : k ≠ lid) :
    getLogs (startServerOk s spec lid port) k = getLogs s k := by
  show ((startServerOk s spec lid port).logs).lookup k = getLogs s k
  rw [startServerOk_logs]
  exact getLogs_pushLog_ne s lid k _ h

theorem startServerOk_getLogs_isSome (s : MState) (spec : ServerSpec)
    (lid : String) (port : Nat) (k : String)
    (h : (getLogs s k).isSome) :
    (getLogs (startServerOk s spec lid port) k).isSome := by
  show (((startServerOk s spec lid port).logs).lookup k).isSome
  rw [startServerOk_logs]
  exact getLogs_pushLog_isSome s lid k _ h

theorem step_remove_logs (s : MState) (id : String) (deleteOk : Bool)
    (s' : MState) (h : step s (.remove id deleteOk) = some s') :
    s'.logs = s.logs ∧ s'.clock = s.clock := by
  simp only [step] at h
  cases hf : findRow id s.serverStates with
  | none =>
    rw [hf] at h
    rw [← Option.some_inj.mp h]
    exact ⟨rfl, rfl⟩
  | some r =>
    rw [hf] at h
    by_cases hd : deleteOk
    · subst hd
      simp only [if_pos] at h
      cases hl : List.lookup id
          (MState.stopHandles
            { s with db := s.db.filter (fun sp => sp.id != id) }) with
      | none =>
        rw [hl] at h
        rw [← Option.some_inj.mp h]
        exact ⟨rfl, rfl⟩
      | some supLid =>
        rw [hl] at h
        rw [← Option.some_inj.mp h]
        exact ⟨rfl, rfl⟩
    · simp only [if_neg hd] at h
      rw [← Option.some_inj.mp h]
      exact ⟨rfl, rfl⟩

/-- C10: the logs registry is never shrunk and is only written at the
acted-on instance's own sink.  For every step of the system: every logs
id registered before the step is still registered after it (so `GetLogs`
keeps returning a sink for an instance whose row has left the live table
— clean stop, clean exit, error, or removal), and the sink registered
under every logs id other than the one the event touches is completely
unchanged. -/
theorem C10_logs_registry_preserved (s : MState) (ev : Ev) (s' : MState)
    (h : step s ev = some s') :
    (∀ k, (getLogs s k).isSome → (getLogs s' k).isSome)
    ∧ (∀ k, k ∉ touchedLogsIds ev → getLogs s' k = getLogs s k) := by
  cases ev with
  | add spec uuid persistOk out =>
    by_cases hp : persistOk
    · subst hp
      simp only [step, if_pos] at h
      unfold startServer at h
      cases hlid : mkLogsId spec.id uuid with
      | none => rw [hlid] at h; exact absurd h (by simp)
      | some lid =>
        rw [hlid] at h
        simp only at h
        have htouch : touchedLogsIds (.add spec uuid true out) = [lid] := by
          simp [touchedLogsIds, hlid]
        have hdb : ∀ k, getLogs { s with db := s.db ++ [spec] } k
            = getLogs s k := fun k => rfl
        cases out with
        | ok port =>
          have hs' : s' = startServerOk
              (startServerPre { s with db := s.db ++ [spec] } spec lid)
              spec lid port := (Option.some_inj.mp h).symm
          constructor
          · intro k hk
            rw [hs']
            exact startServerOk_getLogs_isSome _ _ _ _ _
              (startServerPre_getLogs_isSome _ _ _ _ hk)
          · intro k hk
            rw [htouch] at hk
            have hne : k ≠ lid := by simpa using hk
            rw [hs', startServerOk_getLogs_ne _ _ _ _ _ hne,
              startServerPre_getLogs_ne _ _ _ _ hne]
            exact hdb k
        | failAuth =>
          have hs' : s' = startServerPre { s with db := s.db ++ [spec] }
              spec lid := (Option.some_inj.mp h).symm
          refine ⟨fun k hk => ?_, fun k hk => ?_⟩
          · rw [hs']
            exact startServerPre_getLogs_isSome _ _ _ _ hk
          · rw [htouch] at hk
            have hne : k ≠ lid := by simpa using hk
            rw [hs']
            exact startServerPre_getLogs_ne _ _ _ _ hne
        | failCwd =>
          have hs' : s' = startServerPre { s with db := s.db ++ [spec] }
              spec lid := (Option.some_inj.mp h).symm
          refine ⟨fun k hk => ?_, fun k hk => ?_⟩
          · rw [hs']
            exact startServerPre_getLogs_isSome _ _ _ _ hk
          · rw [htouch] at hk
            have hne : k ≠ lid := by simpa using hk
            rw [hs']
            exact startServerPre_getLogs_ne _ _ _ _ hne
        | failPort =>
          have hs' : s' = startServerPre { s with db := s.db ++ [spec] }
              spec lid := (Option.some_inj.mp h).symm
          refine ⟨fun k hk => ?_, fun k hk => ?_⟩
          · rw [hs']
            exact startServerPre_getLogs_isSome _ _ _ _ hk
          · rw [htouch] at hk
            have hne : k ≠ lid := by simpa using hk
            rw [hs']
            exact startServerPre_getLogs_ne _ _ _ _ hne
        | failSpawn =>
          have hs' : s' = startServerPre { s with db := s.db ++ [spec] }
              spec lid := (Option.some_inj.mp h).symm
          refine ⟨fun k hk => ?_, fun k hk => ?_⟩
          · rw [hs']
            exact startServerPre_getLogs_isSome _ _ _ _ hk
          · rw [htouch] at hk
            have hne : k ≠ lid := by simpa using hk
            rw [hs']
            exact startServerPre_getLogs_ne _ _ _ _ hne
    · simp only [step, if_neg hp] at h
      rw [← Option.some_inj.mp h]
      exact ⟨fun k hk => hk, fun k _ => rfl⟩
  | remove id deleteOk =>
    have hlogs := (step_remove_logs s id deleteOk s' h).1
    have : ∀ k, getLogs s' k = getLogs s k := by
      intro k
      unfold getLogs
      rw [hlogs]
    exact ⟨fun k hk => (this k).symm ▸ hk, fun k _ => this k⟩
  | procExit lid success statusStr =>
    simp only [step] at h
    cases hf : s.sups.find? (fun t => t.logsId == lid) with
    | none => rw [hf] at h; exact absurd h (by simp)
    | some t =>
      rw [hf] at h
      simp only at h
      by_cases hph : t.phase = SupPhase.done
      · rw [if_pos hph] at h; exact absurd h (by simp)
      · rw [if_neg hph] at h
        have hlogs : s'.logs = (pushLog s lid
            (.event ("Server process exited with status: "
              ++ statusStr))).logs := by
          rw [← Option.some_inj.mp h]
          by_cases hs : success = true <;> simp [hs]
        refine ⟨fun k hk => ?_, fun k hk => ?_⟩
        · show ((s'.logs).lookup k).isSome
          rw [hlogs]
          exact getLogs_pushLog_isSome _ _ _ _ hk
        · have hne : k ≠ lid := by simpa [touchedLogsIds] using hk
          show (s'.logs).lookup k = getLogs s k
          rw [hlogs]
          exact getLogs_pushLog_ne _ _ _ _ hne
  | waitFail lid msg =>
    simp only [step] at h
    cases hf : s.sups.find? (fun t => t.logsId == lid) with
    | none => rw [hf] at h; exact absurd h (by simp)
    | some t =>
      rw [hf] at h
      simp only at h
      by_cases hph : t.phase = SupPhase.done
      · rw [if_pos hph] at h; exact absurd h (by simp)
      · rw [if_neg hph] at h
        have hlogs : s'.logs = (pushLog s lid
            (.event ("Server process wait failed: " ++ msg))).logs := by
          rw [← Option.some_inj.mp h]
        refine ⟨fun k hk => ?_, fun k hk => ?_⟩
        · show ((s'.logs).lookup k).isSome
          rw [hlogs]
          exact getLogs_pushLog_isSome _ _ _ _ hk
        · have hne : k ≠ lid := by simpa [touchedLogsIds] using hk
          show (s'.logs).lookup k = getLogs s k
          rw [hlogs]
          exact getLogs_pushLog_ne _ _ _ _ hne
  | stopFires lid killErr =>
    simp only [step] at h
    cases hf : s.sups.find? (fun t => t.logsId == lid) with
    | none => rw [hf] at h; exact absurd h (by simp)
    | some t =>
      rw [hf] at h
      simp only at h
      by_cases hph : t.phase = SupPhase.signalled
      · rw [if_pos hph] at h
        have hlogs : s'.logs = (match killErr with
            | some e => pushLog s lid
                (.event ("Failed to stop server: " ++ e))
            | none => pushLog s lid (.event "Server stopped.")).logs := by
          rw [← Option.some_inj.mp h]
        cases killErr with
        | some e =>
          refine ⟨fun k hk => ?_, fun k hk => ?_⟩
          · show ((s'.logs).lookup k).isSome
            rw [hlogs]
            exact getLogs_pushLog_isSome _ _ _ _ hk
          · have hne : k ≠ lid := by simpa [touchedLogsIds] using hk
            show (s'.logs).lookup k = getLogs s k
            rw [hlogs]
            exact getLogs_pushLog_ne _ _ _ _ hne
        | none =>
          refine ⟨fun k hk => ?_, fun k hk => ?_⟩
          · show ((s'.logs).lookup k).isSome
            rw [hlogs]
            exact getLogs_pushLog_isSome _ _ _ _ hk
          · have hne : k ≠ lid := by simpa [touchedLogsIds] using hk
            show (s'.logs).lookup k = getLogs s k
            rw [hlogs]
            exact getLogs_pushLog_ne _ _ _ _ hne
      · rw [if_neg hph] at h; exact absurd h (by simp)
  | procOutput lid line =>
    simp only [step] at h
    cases hf : s.sups.find? (fun t => t.logsId == lid) with
    | none => rw [hf] at h; exact absurd h (by simp)
    | some t =>
      rw [hf] at h
      simp only at h
      have hlogs : s'.logs
          = (pushLog s lid (.serverProcess line)).logs := by
        rw [← Option.some_inj.mp h]
      refine ⟨fun k hk => ?_, fun k hk => ?_⟩
      · show ((s'.logs).lookup k).isSome
        rw [hlogs]
        exact getLogs_pushLog_isSome _ _ _ _ hk
      · have hne : k ≠ lid := by simpa [touchedLogsIds] using hk
        show (s'.logs).lookup k = getLogs s k
        rw [hlogs]
        exact getLogs_pushLog_ne _ _ _ _ hne

/-- C10 witness: after a clean stop sequence the sink is still
registered, and an unrelated key is untouched by an add step. -/
theorem C10_logs_registry_witness :
    (getLogs ((run init
        [.add cexSpec "u0" true (.ok 5), .remove cexSpec.id true,
          .stopFires cexLid none]).getD init) cexLid).isSome = true
    ∧ getLogs ((run init [.add cexSpec "u0" true (.ok 5)]).getD init)
        "logs_other_u9"
      = getLogs init "logs_other_u9" := by
  refine ⟨by decide, ?_⟩
  exact (C10_logs_registry_preserved init (.add cexSpec "u0" true (.ok 5))
    ((run init [.add cexSpec "u0" true (.ok 5)]).getD init) (by decide)).2
    "logs_other_u9" (by decide)

end FilenRelay
